import Mathlib

/-!
# Verification of the github-runner-image-builder orchestration core

This file gives a shallow embedding, in Lean 4, of the build-orchestration
core of the `github-runner-image-builder` repository and proves the spec's
claims about it.  The embedded code covers:

* `builder._validate_checksum` (streaming SHA-256 validation),
* `builder._fetch_shasums` / `builder._download_and_validate_image`
  (checksum-manifest parsing and lookup),
* the `retry` policy attached to the builder operations,
* the `build_image` pipeline (step ordering, state effects and error flow),
* the best-effort Clean-state cleanup (`_unmount_build_path`,
  `_disconnect_image_to_network_block_device`),
* the chroot session manager,
* `store._prune_old_images` / `store.upload_image` / `store.get_latest_build_id`,
* `upload.OpenstackManager._prune_old_images` / `upload_image`.

Python byte strings are modelled as `List Nat` (each element a byte),
Python `str` values as `List Char` (or `String` where a direct comparison
occurs), machine integers as `Nat` with explicit reductions mod `2^32`
where the SHA-256 arithmetic requires it.  Raising an exception is
modelled with `Except` / `Option` result types.
-/

namespace ImageBuilder

/-! ## SHA-256

An executable implementation of FIPS 180-4 SHA-256 over byte lists,
used to model Python's `hashlib.sha256`.  Words are `Nat` reduced mod
`2^32`.
-/

/-- Reduce to a 32-bit word. -/
def w32 (x : Nat) : Nat := x % 4294967296

/-- Right rotation of a 32-bit word by `n` bits. -/
def rotateRight32 (n x : Nat) : Nat := w32 ((x >>> n) ||| (x <<< (32 - n)))

/-- SHA-256 small sigma 0. -/
def smallSigma0 (x : Nat) : Nat := rotateRight32 7 x ^^^ rotateRight32 18 x ^^^ (x >>> 3)

/-- SHA-256 small sigma 1. -/
def smallSigma1 (x : Nat) : Nat := rotateRight32 17 x ^^^ rotateRight32 19 x ^^^ (x >>> 10)

/-- SHA-256 big sigma 0. -/
def bigSigma0 (x : Nat) : Nat := rotateRight32 2 x ^^^ rotateRight32 13 x ^^^ rotateRight32 22 x

/-- SHA-256 big sigma 1. -/
def bigSigma1 (x : Nat) : Nat := rotateRight32 6 x ^^^ rotateRight32 11 x ^^^ rotateRight32 25 x

/-- The SHA-256 round constants. -/
def shaK : List Nat :=
  [1116352408, 1899447441, 3049323471, 3921009573, 961987163,
   1508970993, 2453635748, 2870763221, 3624381080, 310598401,
   607225278, 1426881987, 1925078388, 2162078206, 2614888103,
   3248222580, 3835390401, 4022224774, 264347078, 604807628,
   770255983, 1249150122, 1555081692, 1996064986, 2554220882,
   2821834349, 2952996808, 3210313671, 3336571891, 3584528711,
   113926993, 338241895, 666307205, 773529912, 1294757372,
   1396182291, 1695183700, 1986661051, 2177026350, 2456956037,
   2730485921, 2820302411, 3259730800, 3345764771, 3516065817,
   3600352804, 4094571909, 275423344, 430227734, 506948616,
   659060556, 883997877, 958139571, 1322822218, 1537002063,
   1747873779, 1955562222, 2024104815, 2227730452, 2361852424,
   2428436474, 2756734187, 3204031479, 3329325298]

/-- The SHA-256 initial hash values. -/
def shaH0 : List Nat :=
  [1779033703, 3144134277, 1013904242, 2773480762,
   1359893119, 2600822924, 528734635, 1541459225]

/-- SHA-256 message padding: append the byte 128, zero bytes, and the 64-bit
big-endian bit length, so the total length is a multiple of 64 bytes. -/
def shaPad (msg : List Nat) : List Nat :=
  let L := msg.length
  let z := (119 - L % 64) % 64
  let bits := 8 * L
  msg ++ 128 :: List.replicate z 0 ++
    [w32 (bits >>> 56) % 256, (bits >>> 48) % 256, (bits >>> 40) % 256,
     (bits >>> 32) % 256, (bits >>> 24) % 256, (bits >>> 16) % 256,
     (bits >>> 8) % 256, bits % 256]

/-- Group bytes into big-endian 32-bit words. -/
def bytesToWords : List Nat → List Nat
  | a :: b :: c :: d :: rest => (((a * 256 + b) * 256 + c) * 256 + d) :: bytesToWords rest
  | _ => []

/-- Split a list into chunks of 16 elements (the word blocks; a padded
message always splits into full blocks). -/
def chunk16 : List Nat → List (List Nat)
  | [] => []
  | x0 :: x1 :: x2 :: x3 :: x4 :: x5 :: x6 :: x7 ::
      x8 :: x9 :: x10 :: x11 :: x12 :: x13 :: x14 :: x15 :: rest =>
    [x0, x1, x2, x3, x4, x5, x6, x7, x8, x9, x10, x11, x12, x13, x14, x15] :: chunk16 rest
  | other => [other]

/-- One step in extending the message schedule; `prev` is the schedule
so far, most recent word first. -/
def schedStep (prev : List Nat) : Nat :=
  w32 (smallSigma1 (prev.getD 1 0) + prev.getD 6 0 + smallSigma0 (prev.getD 14 0) + prev.getD 15 0)

/-- Extend the (reversed) schedule by `n` words. -/
def extendLoop : Nat → List Nat → List Nat
  | 0, acc => acc
  | n + 1, acc => extendLoop n (schedStep acc :: acc)

/-- The 64-word message schedule of a 16-word block. -/
def schedule (block : List Nat) : List Nat :=
  (extendLoop 48 block.reverse).reverse

/-- One SHA-256 compression round on the 8-word working state. -/
def compressStep (st : List Nat) (kt wt : Nat) : List Nat :=
  match st with
  | [a, b, c, d, e, f, g, h] =>
    let t1 := w32 (h + bigSigma1 e + ((e &&& f) ^^^ ((e ^^^ 4294967295) &&& g)) + kt + wt)
    let t2 := w32 (bigSigma0 a + ((a &&& b) ^^^ (a &&& c) ^^^ (b &&& c)))
    [w32 (t1 + t2), a, b, c, w32 (d + t1), e, f, g]
  | other => other

/-- Compress one 16-word block into the running hash. -/
def compressBlock (h : List Nat) (block : List Nat) : List Nat :=
  let st := ((shaK.zip (schedule block)).foldl (fun s kw => compressStep s kw.1 kw.2) h)
  List.zipWith (fun x y => w32 (x + y)) h st

/-- The eight 32-bit hash words of a byte message. -/
def sha256Words (msg : List Nat) : List Nat :=
  (chunk16 (bytesToWords (shaPad msg))).foldl compressBlock shaH0

/-- A lowercase hexadecimal digit. -/
def hexChar (n : Nat) : Char :=
  if n < 10 then Char.ofNat (48 + n) else Char.ofNat (87 + n)

/-- Lowercase big-endian hex rendering of a 32-bit word. -/
def wordToHex (w : Nat) : List Char :=
  [hexChar ((w >>> 28) % 16), hexChar ((w >>> 24) % 16), hexChar ((w >>> 20) % 16),
   hexChar ((w >>> 16) % 16), hexChar ((w >>> 12) % 16), hexChar ((w >>> 8) % 16),
   hexChar ((w >>> 4) % 16), hexChar (w % 16)]

/-- `hashlib.sha256(msg).hexdigest()`: the lowercase hex digest string. -/
def sha256Hex (msg : List Nat) : String :=
  String.mk ((sha256Words msg).map wordToHex).flatten

/-! ## Checksum Validator: `builder._validate_checksum`

The file is modelled as the list of its bytes; Python's `file.read(n)`
returns the next `n` bytes (fewer at the end, empty at end-of-file), and
`hashlib`'s streaming object is the list of bytes fed to it so far.
-/

/-- `CHECKSUM_BUF_SIZE = 65536` (builder.py). -/
def CHECKSUM_BUF_SIZE : Nat := 65536

/-- `hashlib.sha256().update(data)`: append the new bytes to the stream
hashed so far. -/
def sha256ObjUpdate (state data : List Nat) : List Nat := state ++ data

/-- The `while True` read loop of `_validate_checksum`: read a
`CHECKSUM_BUF_SIZE`-byte chunk, stop when the read comes back empty,
otherwise feed the chunk to the hash object.  `content` is the not yet
read remainder of the file; the result is the byte stream fed to the
hash object. -/
def checksumReadLoop (state content : List Nat) : List Nat :=
  if content = [] then state
  else checksumReadLoop (sha256ObjUpdate state (content.take CHECKSUM_BUF_SIZE))
    (content.drop CHECKSUM_BUF_SIZE)
termination_by content.length
decreasing_by
  simp only [List.length_drop, CHECKSUM_BUF_SIZE]
  rcases content with _ | ⟨c, cs⟩
  · simp at *
  · simp only [List.length_cons]
    omega

/-- `builder._validate_checksum(file, expected_checksum)`: stream the
file through SHA-256 in fixed-size chunks and compare
`sha256.hexdigest() == expected_checksum`. -/
def validateChecksum (fileContent : List Nat) (expectedChecksum : String) : Bool :=
  sha256Hex (checksumReadLoop [] fileContent) == expectedChecksum

/-! ## Manifest parsing: `builder._fetch_shasums` and
`builder._download_and_validate_image`

Python strings are modelled as `List Char`.  The manifest text is the
body of the fetched `SHA256SUMS` file; network transport itself is an
external collaborator and enters the model as the fetched text.
-/

/-- The whitespace characters relevant to Python's `str.split()` /
`str.strip()` for manifest text. -/
def isPyWs (c : Char) : Bool :=
  c == ' ' || c == '\t' || c == '\n' || c == '\r'

/-- Strip characters satisfying `p` from both ends (Python `str.strip`). -/
def pyStripBy (p : Char → Bool) (l : List Char) : List Char :=
  ((l.dropWhile p).reverse.dropWhile p).reverse

/-- Python `str.strip()` (no argument: whitespace). -/
def pyStrip (l : List Char) : List Char := pyStripBy isPyWs l

/-- Python `str.strip("*")`. -/
def pyStripStar (l : List Char) : List Char := pyStripBy (· == '*') l

/-- Extend the first piece of a split with a leading character (helper
for the split functions below). -/
def prependFirst (c : Char) : List (List Char) → List (List Char)
  | [] => [[c]]
  | l :: ls => (c :: l) :: ls

/-- Python `str.splitlines()` (for text whose only line break is
`'\n'`): split at every newline; text ending in a newline yields no
trailing empty line. -/
def pySplitlines : List Char → List (List Char)
  | [] => []
  | c :: cs =>
    if c = '\n' then [] :: pySplitlines cs
    else prependFirst c (pySplitlines cs)

/-- Python `str.split()` with no argument: split on runs of whitespace,
discarding empty pieces. -/
def pySplitWs : List Char → List (List Char)
  | [] => []
  | c :: cs =>
    if isPyWs c then pySplitWs cs
    else
      match cs with
      | [] => [[c]]
      | c2 :: _ =>
        if isPyWs c2 then [c] :: pySplitWs cs
        else prependFirst c (pySplitWs cs)

/-- A Python `dict` with `str` keys and values, as its insertion-ordered
association list; keys are unique by construction of `pyDictInsert`. -/
abbrev PyDict := List (List Char × List Char)

/-- Python `dict` assignment: overwrite an existing key in place,
otherwise append. -/
def pyDictInsert (m : PyDict) (k v : List Char) : PyDict :=
  if m.any (fun kv => kv.1 == k) then
    m.map (fun kv => if kv.1 == k then (k, v) else kv)
  else m ++ [(k, v)]

/-- Python `dict` lookup (`m[k]` / `m.get(k)`). -/
def pyDictGet (m : PyDict) (k : List Char) : Option (List Char) :=
  (m.find? (fun kv => kv.1 == k)).map (·.2)

/-- Python `k in m`. -/
def pyDictContains (m : PyDict) (k : List Char) : Bool :=
  m.any (fun kv => kv.1 == k)

/-- One line's contribution to the dict comprehension of
`_fetch_shasums`: `split()` the line; a line whose split is empty
(falsy walrus value) is skipped; otherwise the entry
`parts[1].strip("*") ↦ parts[0]` is added.  A line whose split has
exactly one token makes `parts[1]` raise `IndexError`, modelled as
`none`. -/
def shasumLineStep (acc : Option PyDict) (line : List Char) : Option PyDict :=
  match acc with
  | none => none
  | some m =>
    match pySplitWs line with
    | [] => some m
    | [_] => none
    | digest :: file :: _ => some (pyDictInsert m (pyStripStar file) digest)

/-- The dict comprehension of `_fetch_shasums` over
`shasum_contents.strip().splitlines()`. -/
def fetchShasumsParse (contents : List Char) : Option PyDict :=
  (pySplitlines (pyStrip contents)).foldl shasumLineStep (some [])

/-- A manifest line `"<hex-digest> *<filename>"`. -/
def renderShaLine (digest file : List Char) : List Char :=
  digest ++ ' ' :: '*' :: file

/-- A well-formed manifest token: nonempty and free of whitespace. -/
def wfToken (t : List Char) : Bool :=
  !t.isEmpty && t.all (fun c => !isPyWs c)

/-- A well-formed manifest filename: a token that neither starts nor
ends with `'*'` (so that Python's `strip("*")` recovers it exactly from
`*<filename>`). -/
def wfFileToken (f : List Char) : Bool :=
  wfToken f && f.head? != some '*' && f.getLast? != some '*'

/-- `config.Arch`: the supported system architectures. -/
inductive Arch
  | arm64
  | x64
deriving DecidableEq

/-- `config.BaseImage`: the Ubuntu base images. -/
inductive BaseImage
  | jammy
  | noble
deriving DecidableEq

/-- `BaseImage.value`. -/
def BaseImage.value : BaseImage → List Char
  | .jammy => "jammy".toList
  | .noble => "noble".toList

/-- `builder._get_supported_runner_arch`: GitHub arch to cloud-image
arch.  Every constructor of `Arch` is supported, so the
`UnsupportedArchitectureError` branch is unreachable and the function is
total. -/
def getSupportedRunnerArch : Arch → List Char
  | .x64 => "amd64".toList
  | .arm64 => "arm64".toList

/-- `image_path_str = f"{base_image.value}-server-cloudimg-{bin_arch}.img"`. -/
def imagePathStr (arch : Arch) (base : BaseImage) : List Char :=
  base.value ++ "-server-cloudimg-".toList ++ getSupportedRunnerArch arch ++ ".img".toList

/-- The failures `_download_and_validate_image` can raise; all are
`BaseImageDownloadError`s, distinguished here by their message /
origin. -/
inductive DlErr
  | checksumNotFound
  | invalidChecksum
  | manifestIndexError
deriving DecidableEq

/-- `builder._download_and_validate_image`, with the two network fetches
(image bytes and manifest text) supplied as inputs: look the image
filename up in the parsed manifest (raise
`BaseImageDownloadError("Corresponding checksum not found.")` if
absent), validate the checksum (raise
`BaseImageDownloadError("Invalid checksum.")` on mismatch), and return
the image path. -/
def downloadAndValidateImage (arch : Arch) (base : BaseImage)
    (manifest : List Char) (fileContent : List Nat) : Except DlErr (List Char) :=
  let imagePath := imagePathStr arch base
  match fetchShasumsParse manifest with
  | none => .error .manifestIndexError
  | some shasums =>
    match pyDictGet shasums imagePath with
    | none => .error .checksumNotFound
    | some digest =>
      if validateChecksum fileContent (String.mk digest) then .ok imagePath
      else .error .invalidChecksum

/-! ## Retry policy

`builder.py` decorates five of its functions with
`@retry(tries=…, delay=…, max_delay=…, backoff=…, local_logger=logger)`.
The decorator itself lives in `github_runner_image_builder/utils.py`,
which is not part of the source tree here, so its semantics follows the
spec (§4.2).
-/

/-- The parameters of one `@retry(...)` decorator. -/
structure RetryParams where
  tries : Nat
  delay : Nat
  maxDelay : Nat
  backoff : Nat
deriving DecidableEq

/-- The module-level functions of builder.py (for recording which of
them carry a `@retry` decorator). -/
inductive BuilderOp
  | initBuilderHost
  | installDependencies
  | enableNetworkBlockDevice
  | buildImage
  | disconnectImageToNetworkBlockDevice
  | unmountBuildPath
  | downloadAndValidateImage
  | getSupportedRunnerArch
  | downloadBaseImage
  | fetchShasums
  | validateChecksum
  | resizeImage
  | connectImageToNetworkBlockDevice
  | mountNetworkBlockDevicePartition
  | resizeMountPartitions
  | installYq
  | replaceMountedResolvConf
  | disableUnattendedUpgrades
  | configureSystemUsers
  | configureUsrLocalBin
  | installYarn
  | compressImage
deriving DecidableEq

/-- The `@retry(...)` decorators present in builder.py, transcribed one
to one: the decorated functions and their `(tries, delay, max_delay,
backoff)` arguments; `none` means the function carries no decorator. -/
def retryParams : BuilderOp → Option RetryParams
  | .downloadBaseImage => some ⟨3, 5, 30, 2⟩
  | .fetchShasums => some ⟨3, 5, 30, 2⟩
  | .mountNetworkBlockDevicePartition => some ⟨5, 5, 60, 2⟩
  | .installYq => some ⟨3, 5, 30, 2⟩
  | .compressImage => some ⟨5, 5, 60, 2⟩
  | _ => none

/-- Modelled from the spec: the retry loop of the `utils.retry`
decorator (utils.py is missing from the source tree; spec §4.2: on each
failure sleep `min(initial_delay * backoff_multiplier^(attempt-1),
max_delay)` and retry, and after `max_attempts` consecutive failures
propagate the final error unchanged, with no retry-specific wrapper).
`op n` is the outcome of the n-th attempt (1-based); `remaining` counts
the retries still allowed; the result carries the final outcome, the
total number of attempts made, and the sleeps performed. -/
def retryGo (p : RetryParams) (op : Nat → Except E A) :
    Nat → Nat → List Nat → Except E A × Nat × List Nat
  | attempt, remaining, sleeps =>
    match op attempt with
    | .ok a => (.ok a, attempt, sleeps.reverse)
    | .error e =>
      match remaining with
      | 0 => (.error e, attempt, sleeps.reverse)
      | r + 1 =>
        retryGo p op (attempt + 1) r
          (min (p.delay * p.backoff ^ (attempt - 1)) p.maxDelay :: sleeps)

/-- Modelled from the spec: run `op` under the retry policy `p`
(see `retryGo`). -/
def retryRun (p : RetryParams) (op : Nat → Except E A) :
    Except E A × Nat × List Nat :=
  retryGo p op 1 (p.tries - 1) []

/-! ## Block device lifecycle: the cleanup commands

`_unmount_build_path` and `_disconnect_image_to_network_block_device`
run fixed command lines through `subprocess.run`.  The host's
mount/attach state is the part of the world these commands act on:
the three bind mounts under `IMAGE_MOUNT_DIR`, the mount of the nbd
partition on `IMAGE_MOUNT_DIR`, and the nbd attachment itself.
-/

/-- The host resources the builder manipulates. -/
structure HostState where
  devBindMounted : Bool
  procBindMounted : Bool
  sysBindMounted : Bool
  rootMounted : Bool
  nbdAttached : Bool
deriving DecidableEq

/-- A host with no prior attach or mount state. -/
def cleanHost : HostState := ⟨false, false, false, false, false⟩

/-- The command lines issued by the two cleanup functions. -/
inductive CleanupCmd
  | umountDev
  | umountProc
  | umountSys
  | umountRoot
  | umountNbd
  | umountNbdPartition
  | nbdDisconnect
  | nbdDisconnectPartition
deriving DecidableEq

/-- Effect and exit code of each cleanup command on the host:
`umount` of a path that is not mounted fails (exit 32) and changes
nothing; `umount` of a mounted path unmounts it; `/dev/nbd0` itself
never has a filesystem mounted from it (its partition does), so its
umount always fails; `qemu-nbd --disconnect` is idempotent and exits 0
(disconnecting `/dev/nbd0` releases the attachment, the run against the
partition node is a no-op). -/
def runCleanupCmd (s : HostState) : CleanupCmd → HostState × Nat
  | .umountDev =>
    if s.devBindMounted then ({ s with devBindMounted := false }, 0) else (s, 32)
  | .umountProc =>
    if s.procBindMounted then ({ s with procBindMounted := false }, 0) else (s, 32)
  | .umountSys =>
    if s.sysBindMounted then ({ s with sysBindMounted := false }, 0) else (s, 32)
  | .umountRoot =>
    if s.rootMounted then ({ s with rootMounted := false }, 0) else (s, 32)
  | .umountNbd => (s, 32)
  | .umountNbdPartition =>
    if s.rootMounted then ({ s with rootMounted := false }, 0) else (s, 32)
  | .nbdDisconnect => ({ s with nbdAttached := false }, 0)
  | .nbdDisconnectPartition => (s, 0)

/-- `subprocess.CalledProcessError`. -/
inductive SubprocessExc
  | calledProcessError (cmd : CleanupCmd)
deriving DecidableEq

/-- `subprocess.run(cmd, check=check)`: run the command; with
`check=True` a non-zero exit raises `CalledProcessError`, with
`check=False` the exit code is returned and discarded failures are
harmless. -/
def subprocessRun (s : HostState) (cmd : CleanupCmd) (check : Bool) :
    HostState × Except SubprocessExc Nat :=
  let s1 := (runCleanupCmd s cmd).1
  let code := (runCleanupCmd s cmd).2
  if check && code != 0 then (s1, .error (.calledProcessError cmd))
  else (s1, .ok code)

/-- Run a sequence of commands, stopping at the first raised
`CalledProcessError`; collects the observed exit codes. -/
def runCmdSeq (s : HostState) (cmds : List CleanupCmd) (check : Bool) :
    HostState × Except SubprocessExc (List Nat) :=
  match cmds with
  | [] => (s, .ok [])
  | c :: rest =>
    match subprocessRun s c check with
    | (s1, .error e) => (s1, .error e)
    | (s1, .ok code) =>
      match runCmdSeq s1 rest check with
      | (s2, .error e) => (s2, .error e)
      | (s2, .ok codes) => (s2, .ok (code :: codes))

/-- The six umount commands of `_unmount_build_path`, in source order:
`IMAGE_MOUNT_DIR/dev`, `…/proc`, `…/sys`, `IMAGE_MOUNT_DIR`,
`/dev/nbd0`, `/dev/nbd0p1`. -/
def unmountSeq : List CleanupCmd :=
  [.umountDev, .umountProc, .umountSys, .umountRoot, .umountNbd, .umountNbdPartition]

/-- `builder._unmount_build_path`: six `subprocess.run` calls with
`check=False` (the commands fail when the artefacts do not exist, so
their exit codes are deliberately not checked).  The
`UnmountBuildPathError` branch covers `subprocess.SubprocessError`
(e.g. a timeout), which this model does not produce. -/
def unmountBuildPath (s : HostState) : HostState × Except SubprocessExc (List Nat) :=
  runCmdSeq s unmountSeq false

/-- The errors of errors.py raised along the pipeline
(`ImageBuilderBaseError` subtypes); `buildImageError cause` models
`raise BuildImageError from exc`, whose chained cause stays
inspectable. -/
inductive BuildErr
  | baseImageDownloadError
  | imageResizeError
  | imageConnectError
  | resizePartitionError
  | yqBuildError
  | chrootBaseError
  | unattendedUpgradeDisableError
  | systemUserConfigurationError
  | permissionConfigurationError
  | yarnInstallError
  | subprocessCalledProcessError
  | imageCompressError
  | buildImageError (cause : BuildErr)
deriving DecidableEq

/-- `builder._disconnect_image_to_network_block_device(check)`: two
`qemu-nbd --disconnect` runs (device node, then partition node) with
the given `check`; a `CalledProcessError` is re-raised as
`ImageConnectError from exc`. -/
def disconnectImageToNetworkBlockDevice (s : HostState) (check : Bool) :
    HostState × Except BuildErr (List Nat) :=
  match runCmdSeq s [.nbdDisconnect, .nbdDisconnectPartition] check with
  | (s1, .error _) => (s1, .error .imageConnectError)
  | (s1, .ok codes) => (s1, .ok codes)

/-! ## The build pipeline: `builder.build_image`

The pipeline is modelled as the straight-line sequence of the source,
parameterized by an oracle giving each fallible step's outcome; it
returns the final host state, the trace of steps performed, and the
error it raises, if any.
-/

/-- Outcome of the `with ChrootContextManager(...)` block in
`build_image`: everything inside succeeds; or the context manager
itself raises a `ChrootBaseError` (the only type the surrounding
`except` catches); or one of the configuration steps inside raises its
own error (an `ImageBuilderBaseError` subtype or a raw
`CalledProcessError` from the apt calls), which `except
ChrootBaseError` does not catch. -/
inductive ChrootBlockOutcome
  | ok
  | sessionError
  | stepError (e : BuildErr)
deriving DecidableEq

/-- Outcomes of the fallible steps of one `build_image` run. -/
structure StepOutcomes where
  downloadValidateOk : Bool
  resizeImageOk : Bool
  connectOk : Bool
  mountOk : Bool
  resizePartitionsOk : Bool
  installYqOk : Bool
  chrootBlock : ChrootBlockOutcome
  compressOk : Bool
deriving DecidableEq

/-- The oracle under which every step succeeds. -/
def allStepsOk : StepOutcomes :=
  ⟨true, true, true, true, true, true, .ok, true⟩

/-- The steps of `build_image`, in the vocabulary of the spec. -/
inductive PipelineStep
  | cleanUnmount
  | cleanDisconnect
  | makeMountDir
  | downloadAndValidate
  | resizeImage
  | connectDevice
  | mountPartition
  | resizePartitions
  | installYq
  | replaceResolvConf
  | chrootConfigure
  | disconnectDevice
  | compressImage
deriving DecidableEq

/-- `builder.build_image`, step for step from the source: the two
Clean-state cleanup calls run unconditionally first; each later step
runs only if all earlier ones succeeded; a failing step's error
propagates directly — only a `ChrootBaseError` from the chroot block is
caught and re-raised as `BuildImageError from exc`.  Returns (final
host state, steps attempted in order, raised error if any). -/
def buildImage (o : StepOutcomes) (s0 : HostState) :
    HostState × List PipelineStep × Option BuildErr :=
  let s := (unmountBuildPath s0).1
  let s := (disconnectImageToNetworkBlockDevice s false).1
  let tr := [PipelineStep.cleanUnmount, .cleanDisconnect, .makeMountDir, .downloadAndValidate]
  if o.downloadValidateOk = false then (s, tr, some .baseImageDownloadError) else
  let tr := tr ++ [.resizeImage]
  if o.resizeImageOk = false then (s, tr, some .imageResizeError) else
  let tr := tr ++ [.connectDevice]
  if o.connectOk = false then (s, tr, some .imageConnectError) else
  let s := { s with nbdAttached := true }
  let tr := tr ++ [.mountPartition]
  if o.mountOk = false then (s, tr, some .imageConnectError) else
  let s := { s with rootMounted := true }
  let tr := tr ++ [.resizePartitions]
  if o.resizePartitionsOk = false then (s, tr, some .resizePartitionError) else
  let tr := tr ++ [.installYq]
  if o.installYqOk = false then (s, tr, some .yqBuildError) else
  let tr := tr ++ [.replaceResolvConf, .chrootConfigure]
  match o.chrootBlock with
  | .sessionError => (s, tr, some (.buildImageError .chrootBaseError))
  | .stepError e => (s, tr, some e)
  | .ok =>
  let s := (disconnectImageToNetworkBlockDevice s true).1
  let tr := tr ++ [.disconnectDevice, .compressImage]
  if o.compressOk = false then (s, tr, some .imageCompressError) else
  (s, tr, none)

/-! ## Chroot Session Manager

`ChrootContextManager` lives in `github_runner_image_builder/chroot.py`,
which is not part of the source tree here (builder.py imports it), so
its behaviour is modelled from spec §4.5.
-/

/-- The three paths bound into the new root. -/
inductive BindPath
  | dev
  | proc
  | sys
deriving DecidableEq

/-- The observable operations of a chroot session. -/
inductive ChrootOp
  | bindMount (p : BindPath)
  | enterRoot
  | exitRoot
  | unbind (p : BindPath)
deriving DecidableEq

/-- The session's resource state: which paths are bound and whether the
process root is changed. -/
structure ChrootState where
  devBound : Bool
  procBound : Bool
  sysBound : Bool
  rootChanged : Bool
deriving DecidableEq

/-- How a chroot session ends. -/
inductive ChrootRes (E : Type)
  | success
  | enterError (p : BindPath)
  | bodyError (e : E)
  | unwindError
deriving DecidableEq

/-- Modelled from the spec: `ChrootContextManager` (chroot.py, missing
from the source tree).  Spec §4.5: on enter, bind-mount host `/dev`,
`/proc`, `/sys` into the root in that order, then change the process
root; a bind failure is fatal and aborts entry, unwinding only the
binds that succeeded.  On exit — success or error — change root back to
the original, then unbind each of the three paths in reverse order,
each unbind attempted even if an earlier one fails
(collect-and-continue); unwind failures are aggregated and never mask
the in-chroot error.  `bindOk` and `unbindOk` give each mount
operation's outcome, `body` the operation run inside the chroot.
Returns (final state, operation trace, result). -/
def chrootSession (bindOk unbindOk : BindPath → Bool) (body : Except E Unit) :
    ChrootState × List ChrootOp × ChrootRes E :=
  if bindOk .dev = false then
    (⟨false, false, false, false⟩, [.bindMount .dev], .enterError .dev)
  else if bindOk .proc = false then
    let st : ChrootState := ⟨!unbindOk .dev, false, false, false⟩
    (st, [.bindMount .dev, .bindMount .proc, .unbind .dev], .enterError .proc)
  else if bindOk .sys = false then
    let st : ChrootState := ⟨!unbindOk .dev, !unbindOk .proc, false, false⟩
    (st, [.bindMount .dev, .bindMount .proc, .bindMount .sys, .unbind .proc, .unbind .dev],
      .enterError .sys)
  else
    let st : ChrootState :=
      ⟨!unbindOk .dev, !unbindOk .proc, !unbindOk .sys, false⟩
    let tr : List ChrootOp :=
      [.bindMount .dev, .bindMount .proc, .bindMount .sys, .enterRoot,
       .exitRoot, .unbind .sys, .unbind .proc, .unbind .dev]
    match body with
    | .error e => (st, tr, .bodyError e)
    | .ok _ =>
      if unbindOk .dev && unbindOk .proc && unbindOk .sys then (st, tr, .success)
      else (st, tr, .unwindError)

/-! ## Image Store Manager: store.py -/

/-- One image revision in the cloud registry. -/
structure OsImage where
  id : String
  createdAt : Nat
deriving DecidableEq

/-- Insert an image into a list already sorted latest-first, before the
first strictly-older image (so elements with equal timestamps keep
their relative order, matching the stability of Python's `sorted`). -/
def insertByCreatedAtDesc (img : OsImage) : List OsImage → List OsImage
  | [] => [img]
  | x :: xs =>
    if x.createdAt ≤ img.createdAt then img :: x :: xs
    else x :: insertByCreatedAtDesc img xs

/-- `sorted(images, key=lambda image: image.created_at, reverse=True)`:
a stable sort, latest first (insertion sort). -/
def sortImagesByCreatedAt (images : List OsImage) : List OsImage :=
  images.foldr insertByCreatedAtDesc []

/-- What `connection.delete_image(id, wait=True)` does for a given id:
succeed, return `False`, or raise an `OpenStackCloudException`. -/
inductive DeleteResult
  | ok
  | returnsFalse
  | raisesCloudException
deriving DecidableEq

/-- The errors of the two store variants. -/
inductive StoreErr
  | openstackError
  | uploadImageError
deriving DecidableEq

/-- The deletion loop of `store._prune_old_images`: delete each image in
order; `delete_image` returning `False` raises
`OpenstackError("Failed to delete image: …")` and an
`OpenStackCloudException` is re-raised as `OpenstackError from exc` —
either aborts the loop.  Returns the ids whose deletion was attempted,
in order, and the raised error if any. -/
def storeDeleteLoop (delete : String → DeleteResult) :
    List OsImage → List String × Option StoreErr
  | [] => ([], none)
  | img :: rest =>
    match delete img.id with
    | .ok =>
      let res := storeDeleteLoop delete rest
      (img.id :: res.1, res.2)
    | .returnsFalse => ([img.id], some .openstackError)
    | .raisesCloudException => ([img.id], some .openstackError)

/-- `store._prune_old_images(connection, image_name, num_revisions)`:
fetch all images matching the name (given here as `images`), sort
latest first, return early if there are none, and delete
`images[num_revisions:]`. -/
def storePruneOldImages (images : List OsImage) (delete : String → DeleteResult)
    (numRevisions : Nat) : List String × Option StoreErr :=
  let sorted := sortImagesByCreatedAt images
  if sorted.isEmpty then ([], none)
  else storeDeleteLoop delete (sorted.drop numRevisions)

/-- The ids whose deletion actually succeeded. -/
def deletedIds (delete : String → DeleteResult) (attempted : List String) : List String :=
  attempted.filter (fun i => delete i == .ok)

/-- The registry contents after some deletions. -/
def survivingImages (images : List OsImage) (deleted : List String) : List OsImage :=
  images.filter (fun img => !(deleted.contains img.id))

/-- `store.upload_image` with the store's `create_image` outcome
supplied: upload first (an `OpenStackCloudException` there becomes
`UploadImageError from exc`), then prune; the pruning `OpenstackError`
is not an `OpenStackCloudException`, so it propagates as-is.  Returns
the call's result and the deletion attempts made. -/
def storeUploadImage (createOk : Bool) (newId : String) (images : List OsImage)
    (delete : String → DeleteResult) (keepRevisions : Nat) :
    Except StoreErr String × List String :=
  if createOk = false then (.error .uploadImageError, [])
  else
    match storePruneOldImages images delete keepRevisions with
    | (attempted, none) => (.ok newId, attempted)
    | (attempted, some e) => (.error e, attempted)

/-- `store.get_latest_build_id(cloud_name, image_name)`: fetch+sort and
return the first image's id, or `""` when there are no matches. -/
def getLatestBuildId (images : List OsImage) : String :=
  match sortImagesByCreatedAt images with
  | [] => ""
  | img :: _ => img.id

/-! ## Image Store Manager: the upload.py `OpenstackManager` variant -/

/-- Python `l[k:]`: slice from `k`, where a negative `k` counts from the
end (start = max(0, len + k)). -/
def pySliceFrom (l : List OsImage) (k : Int) : List OsImage :=
  if 0 ≤ k then l.drop k.toNat
  else l.drop (l.length - min l.length (-k).toNat)

/-- The observable events of `OpenstackManager.upload_image`. -/
inductive ManagerEvent
  | deleteAttempt (id : String)
  | createImage
deriving DecidableEq

/-- The deletion loop of `OpenstackManager._prune_old_images`: each
deletion is attempted; a `False` return is logged, an
`OpenStackCloudException` is logged and skipped with `continue` — the
loop never aborts.  Returns the ids attempted, in order. -/
def managerDeleteLoop (delete : String → DeleteResult) : List OsImage → List String
  | [] => []
  | img :: rest =>
    match delete img.id with
    | .ok => img.id :: managerDeleteLoop delete rest
    | .returnsFalse => img.id :: managerDeleteLoop delete rest
    | .raisesCloudException => img.id :: managerDeleteLoop delete rest

/-- `OpenstackManager._prune_old_images(image_name, num_revisions)`:
fetch+sort latest first, slice `images[num_revisions:]` with Python
slice semantics, and delete collect-and-continue. -/
def managerPruneOldImages (images : List OsImage) (delete : String → DeleteResult)
    (numRevisions : Int) : List String :=
  managerDeleteLoop delete (pySliceFrom (sortImagesByCreatedAt images) numRevisions)

/-- `OpenstackManager.upload_image(config)`: prune down to
`config.num_revisions - 1` revisions first, then `create_image`; the
event trace records the deletion attempts preceding the upload. -/
def managerUploadImage (images : List OsImage) (delete : String → DeleteResult)
    (numRevisions : Int) (createOk : Bool) (newId : String) :
    List ManagerEvent × Except StoreErr String :=
  let attempted := managerPruneOldImages images delete (numRevisions - 1)
  let tr := attempted.map ManagerEvent.deleteAttempt ++ [ManagerEvent.createImage]
  if createOk then (tr, .ok newId) else (tr, .error .uploadImageError)

/-! ## Concrete instances used in the theorems below -/

/-- The oracle under which `_resize_mount_partitions` fails and every
earlier step succeeds. -/
def resizeFailOutcomes : StepOutcomes :=
  ⟨true, true, true, true, false, true, .ok, true⟩

/-- Three revisions of one image name with distinct timestamps, newest
first: ids a (newest), b, c (oldest). -/
def exImages : List OsImage := [⟨"a", 3⟩, ⟨"b", 2⟩, ⟨"c", 1⟩]

/-- A registry in which deleting image b raises an
`OpenStackCloudException` and every other deletion succeeds. -/
def exDelete : String → DeleteResult :=
  fun i => if i == "b" then .raisesCloudException else .ok

/-- The example checksum manifest of the spec, with jammy and noble
amd64 entries. -/
def exManifest : List Char :=
  ("abc123 *jammy-server-cloudimg-amd64.img\n"
    ++ "def456 *noble-server-cloudimg-amd64.img").toList

/-- The (digest, filename) entries of `exManifest`. -/
def exEntries : List (List Char × List Char) :=
  [("abc123".toList, "jammy-server-cloudimg-amd64.img".toList),
   ("def456".toList, "noble-server-cloudimg-amd64.img".toList)]

/-! ## Supporting lemmas -/

/-- The chunked read loop feeds exactly the whole file, in order, to
the hash object: reading in `CHECKSUM_BUF_SIZE` chunks loses and
reorders nothing. -/
theorem checksumReadLoop_eq (state content : List Nat) :
    checksumReadLoop state content = state ++ content := by
  rw [checksumReadLoop]
  split
  · simp [*]
  · rw [checksumReadLoop_eq, sha256ObjUpdate, List.append_assoc, List.take_append_drop]
termination_by content.length
decreasing_by
  simp only [List.length_drop, CHECKSUM_BUF_SIZE]
  rcases content with _ | ⟨c, cs⟩
  · simp at *
  · simp only [List.length_cons]
    omega

/-- `dropWhile` is the identity on a list whose head does not satisfy
the predicate. -/
theorem dropWhile_of_head {p : Char → Bool} {l : List Char}
    (h : ∀ c, l.head? = some c → p c = false) : l.dropWhile p = l := by
  cases l with
  | nil => rfl
  | cons c cs =>
    rw [List.dropWhile_cons, if_neg]
    simp [h c rfl]

/-- `split()` skips a leading whitespace character. -/
theorem pySplitWs_ws_cons (c : Char) (r : List Char) (hc : isPyWs c = true) :
    pySplitWs (c :: r) = pySplitWs r := by
  simp [pySplitWs, hc]

/-- Two leading non-whitespace characters belong to the same token. -/
theorem pySplitWs_cons_cons (a b : Char) (l : List Char)
    (ha : isPyWs a = false) (hb : isPyWs b = false) :
    pySplitWs (a :: b :: l) = prependFirst a (pySplitWs (b :: l)) := by
  simp [pySplitWs, ha, hb]

/-- `split()` peels off a leading whitespace-free token when the
remainder is empty or starts with whitespace. -/
theorem pySplitWs_token (t r : List Char) (htne : t ≠ [])
    (ht : ∀ c ∈ t, isPyWs c = false)
    (hr : ∀ c, r.head? = some c → isPyWs c = true) :
    pySplitWs (t ++ r) = t :: pySplitWs r := by
  induction t with
  | nil => exact absurd rfl htne
  | cons a t' ih =>
    have ha : isPyWs a = false := ht a (by simp)
    cases t' with
    | nil =>
      simp only [List.cons_append, List.nil_append]
      cases r with
      | nil => simp [pySplitWs, ha]
      | cons c2 cs2 =>
        have hc2 : isPyWs c2 = true := hr c2 rfl
        simp [pySplitWs, ha, hc2]
    | cons b t'' =>
      have hb : isPyWs b = false := ht b (by simp)
      have ih2 := ih (by simp) (fun c hc => ht c (List.mem_cons_of_mem a hc))
      simp only [List.cons_append] at ih2 ⊢
      rw [pySplitWs_cons_cons a b (t'' ++ r) ha hb, ih2]
      rfl

/-- A token is nonempty. -/
theorem wfToken_ne_nil {t : List Char} (h : wfToken t = true) : t ≠ [] := by
  intro heq
  subst heq
  simp [wfToken] at h

/-- A token contains no whitespace. -/
theorem wfToken_no_ws {t : List Char} (h : wfToken t = true) :
    ∀ c ∈ t, isPyWs c = false := by
  simp only [wfToken, Bool.and_eq_true, List.all_eq_true, Bool.not_eq_true'] at h
  exact h.2

/-- A well-formed filename is a well-formed token. -/
theorem wfFileToken_wfToken {f : List Char} (h : wfFileToken f = true) :
    wfToken f = true := by
  simp only [wfFileToken, Bool.and_eq_true] at h
  exact h.1.1

/-- `split()` of a manifest line `"<digest> *<filename>"` yields the
two tokens. -/
theorem pySplitWs_renderLine (d f : List Char)
    (hd : wfToken d = true) (hf : wfToken f = true) :
    pySplitWs (renderShaLine d f) = [d, '*' :: f] := by
  rw [renderShaLine]
  rw [pySplitWs_token d (' ' :: '*' :: f) (wfToken_ne_nil hd) (wfToken_no_ws hd)
    (fun c hc => by simp at hc; subst hc; rfl)]
  rw [pySplitWs_ws_cons ' ' ('*' :: f) rfl]
  have h2 : pySplitWs (('*' :: f) ++ []) = ('*' :: f) :: pySplitWs [] := by
    refine pySplitWs_token ('*' :: f) [] (by simp) ?_ (fun c hc => by simp at hc)
    intro c hc
    rcases List.mem_cons.mp hc with hc | hc
    · subst hc; rfl
    · exact wfToken_no_ws hf c hc
  rw [List.append_nil] at h2
  rw [h2]
  rfl

/-- Python's `strip("*")` recovers a well-formed filename from
`*<filename>`. -/
theorem pyStripStar_star (f : List Char) (hf : wfFileToken f = true) :
    pyStripStar ('*' :: f) = f := by
  simp only [wfFileToken, Bool.and_eq_true, bne_iff_ne] at hf
  obtain ⟨⟨-, hhead⟩, hlast⟩ := hf
  rw [pyStripStar, pyStripBy]
  have h1 : ('*' :: f).dropWhile (· == '*') = f.dropWhile (· == '*') := by
    rw [List.dropWhile_cons, if_pos (by rfl)]
  have h2 : f.dropWhile (· == '*') = f := by
    refine dropWhile_of_head (fun c hc => ?_)
    have : c ≠ '*' := fun hceq => hhead (by rw [← hceq]; exact hc)
    simp [this]
  have h3 : f.reverse.dropWhile (· == '*') = f.reverse := by
    refine dropWhile_of_head (fun c hc => ?_)
    rw [List.head?_reverse] at hc
    have : c ≠ '*' := fun hceq => hlast (by rw [← hceq]; exact hc)
    simp [this]
  rw [h1, h2, h3, List.reverse_reverse]

/-- One well-formed manifest line adds exactly its
`filename ↦ digest` entry to the dict. -/
theorem shasumLineStep_render (m : PyDict) (d f : List Char)
    (hd : wfToken d = true) (hf : wfFileToken f = true) :
    shasumLineStep (some m) (renderShaLine d f)
      = some (pyDictInsert m f d) := by
  rw [shasumLineStep, pySplitWs_renderLine d f hd (wfFileToken_wfToken hf)]
  show some (pyDictInsert m (pyStripStar ('*' :: f)) d) = some (pyDictInsert m f d)
  rw [pyStripStar_star f hf]

/-- Inserting a fresh key appends. -/
theorem pyDictInsert_fresh (m : PyDict) (k v : List Char)
    (h : m.any (fun kv => kv.1 == k) = false) :
    pyDictInsert m k v = m ++ [(k, v)] := by
  rw [pyDictInsert, if_neg]
  simp [h]

/-- Folding the rendered manifest lines over the dict comprehension
builds exactly the filename-to-digest association list, provided the
filenames are fresh and pairwise distinct. -/
theorem fetchShasums_foldl (entries : List (List Char × List Char)) (m : PyDict)
    (hwf : ∀ e ∈ entries, wfToken e.1 = true ∧ wfFileToken e.2 = true)
    (hfresh : ∀ e ∈ entries, m.any (fun kv => kv.1 == e.2) = false)
    (hnodup : (entries.map Prod.snd).Nodup) :
    (entries.map (fun e => renderShaLine e.1 e.2)).foldl shasumLineStep (some m)
      = some (m ++ entries.map (fun e => (e.2, e.1))) := by
  induction entries generalizing m with
  | nil => simp
  | cons e rest ih =>
    obtain ⟨d, f⟩ := e
    have hwf0 := hwf (d, f) (by simp)
    simp only [List.map_cons, List.nodup_cons] at hnodup
    simp only [List.map_cons, List.foldl_cons]
    rw [shasumLineStep_render m d f hwf0.1 hwf0.2,
      pyDictInsert_fresh m f d (hfresh (d, f) (by simp))]
    rw [ih (m ++ [(f, d)])
      (fun x hx => hwf x (List.mem_cons_of_mem _ hx))
      ?_ hnodup.2]
    · simp
    · intro x hx
      have hm := hfresh x (List.mem_cons_of_mem _ hx)
      have hxf : x.2 ≠ f := by
        intro heq
        exact hnodup.1 (List.mem_map.mpr ⟨x, hx, heq⟩)
      rw [List.any_append, hm]
      simp [hxf.symm]

/-- Looking up a filename present in the entries yields its digest
(filenames pairwise distinct). -/
theorem pyDictGet_swap_mem (entries : List (List Char × List Char))
    (hnodup : (entries.map Prod.snd).Nodup) (d f : List Char)
    (hmem : (d, f) ∈ entries) :
    pyDictGet (entries.map (fun e => (e.2, e.1))) f = some d := by
  induction entries with
  | nil => cases hmem
  | cons e rest ih =>
    obtain ⟨d0, f0⟩ := e
    simp only [List.map_cons, List.nodup_cons] at hnodup
    rw [pyDictGet, List.map_cons]
    by_cases hf : f0 = f
    · subst hf
      rw [List.find?_cons_of_pos _ (by simp)]
      rcases List.mem_cons.mp hmem with h | h
      · have hd0 : d = d0 := by simpa using congrArg Prod.fst h
        subst hd0
        rfl
      · exact absurd (List.mem_map.mpr ⟨(d, f0), h, rfl⟩) hnodup.1
    · rw [List.find?_cons_of_neg _ (by simp [hf])]
      rcases List.mem_cons.mp hmem with h | h
      · exact absurd (congrArg Prod.snd h).symm hf
      · exact ih hnodup.2 h

/-- Looking up a filename absent from the entries yields nothing. -/
theorem pyDictGet_swap_not_mem (entries : List (List Char × List Char))
    (f : List Char) (habs : f ∉ entries.map Prod.snd) :
    pyDictGet (entries.map (fun e => (e.2, e.1))) f = none := by
  rw [pyDictGet]
  rw [List.find?_eq_none.mpr]
  · rfl
  · intro x hx
    obtain ⟨e, he, hex⟩ := List.mem_map.mp hx
    intro hbeq
    apply habs
    have : x.1 = f := by simpa using hbeq
    rw [← hex] at this
    exact List.mem_map.mpr ⟨e, he, this⟩

/-- Inserting into a sorted list permutes to consing. -/
theorem insertByCreatedAtDesc_perm (img : OsImage) (l : List OsImage) :
    (insertByCreatedAtDesc img l).Perm (img :: l) := by
  induction l with
  | nil => simp [insertByCreatedAtDesc]
  | cons x xs ih =>
    rw [insertByCreatedAtDesc]
    split
    · exact List.Perm.refl _
    · exact (ih.cons x).trans (List.Perm.swap img x xs)

/-- The sort permutes its input. -/
theorem sortImages_perm (l : List OsImage) : (sortImagesByCreatedAt l).Perm l := by
  induction l with
  | nil => simp [sortImagesByCreatedAt]
  | cons x xs ih =>
    exact (insertByCreatedAtDesc_perm x (sortImagesByCreatedAt xs)).trans (ih.cons x)

/-- Inserting preserves the latest-first ordering. -/
theorem insertByCreatedAtDesc_pairwise {img : OsImage} {l : List OsImage}
    (h : l.Pairwise (fun a b => b.createdAt ≤ a.createdAt)) :
    (insertByCreatedAtDesc img l).Pairwise (fun a b => b.createdAt ≤ a.createdAt) := by
  induction l with
  | nil => simp [insertByCreatedAtDesc]
  | cons x xs ih =>
    rw [List.pairwise_cons] at h
    obtain ⟨h1, h2⟩ := h
    rw [insertByCreatedAtDesc]
    split
    · rename_i hcond
      refine List.Pairwise.cons ?_ (List.Pairwise.cons h1 h2)
      intro y hy
      rcases List.mem_cons.mp hy with hy | hy
      · subst hy; exact hcond
      · exact le_trans (h1 y hy) hcond
    · rename_i hcond
      refine List.Pairwise.cons ?_ (ih h2)
      intro y hy
      have hy2 := (insertByCreatedAtDesc_perm img xs).mem_iff.mp hy
      rcases List.mem_cons.mp hy2 with hy2 | hy2
      · subst hy2; omega
      · exact h1 y hy2

/-- The sort output is ordered latest first. -/
theorem sortImages_sorted (l : List OsImage) :
    (sortImagesByCreatedAt l).Pairwise (fun a b => b.createdAt ≤ a.createdAt) := by
  induction l with
  | nil => simp [sortImagesByCreatedAt]
  | cons x xs ih => exact insertByCreatedAtDesc_pairwise ih

/-- Sorting preserves length. -/
theorem sortImages_length (l : List OsImage) :
    (sortImagesByCreatedAt l).length = l.length :=
  (sortImages_perm l).length_eq

/-- Every element of the kept prefix relates to every element of the
dropped suffix. -/
theorem pairwise_take_drop {α : Type} {R : α → α → Prop} {l : List α}
    (h : l.Pairwise R) (k : Nat) :
    ∀ a ∈ l.take k, ∀ b ∈ l.drop k, R a b := by
  have h2 : (l.take k ++ l.drop k).Pairwise R := by
    rw [List.take_append_drop]; exact h
  exact (List.pairwise_append.mp h2).2.2

/-- Distinctness of a projection transfers to the sorted list, pairwise. -/
theorem sortImages_pairwise_ne {β : Type} (f : OsImage → β) (images : List OsImage)
    (h : (images.map f).Nodup) :
    (sortImagesByCreatedAt images).Pairwise (fun a b => f a ≠ f b) := by
  have h1 : images.Pairwise (fun a b => f a ≠ f b) := List.pairwise_map.mp h
  exact ((sortImages_perm images).pairwise_iff (fun hxy => hxy.symm)).mpr h1

/-- When every deletion succeeds, the store loop attempts each image in
order and raises nothing. -/
theorem storeDeleteLoop_allOk (delete : String → DeleteResult)
    (h : ∀ i, delete i = .ok) (l : List OsImage) :
    storeDeleteLoop delete l = (l.map OsImage.id, none) := by
  induction l with
  | nil => rfl
  | cons x xs ih => simp [storeDeleteLoop, h x.id, ih]

/-- The store loop is fail-fast: the first failing deletion raises
`OpenstackError` and the remaining images are never attempted. -/
theorem storeDeleteLoop_firstFail (delete : String → DeleteResult)
    (pre : List OsImage) (x : OsImage) (post : List OsImage)
    (hpre : ∀ i ∈ pre, delete i.id = .ok) (hx : delete x.id ≠ .ok) :
    storeDeleteLoop delete (pre ++ x :: post)
      = (pre.map OsImage.id ++ [x.id], some .openstackError) := by
  induction pre with
  | nil =>
    cases hdx : delete x.id with
    | ok => exact absurd hdx hx
    | returnsFalse => simp [storeDeleteLoop, hdx]
    | raisesCloudException => simp [storeDeleteLoop, hdx]
  | cons p ps ih =>
    have hp : delete p.id = .ok := hpre p (by simp)
    have ih2 := ih (fun i hi => hpre i (List.mem_cons_of_mem p hi))
    simp [storeDeleteLoop, hp, ih2]

/-- The manager loop attempts every deletion no matter how each one
turns out (collect-and-continue). -/
theorem managerDeleteLoop_eq_map (delete : String → DeleteResult) (l : List OsImage) :
    managerDeleteLoop delete l = l.map OsImage.id := by
  induction l with
  | nil => rfl
  | cons x xs ih => cases hdx : delete x.id <;> simp [managerDeleteLoop, hdx, ih]

/-- Deleting exactly the images dropped by the sort leaves (a
permutation of) the kept prefix, provided ids are distinct. -/
theorem surviving_take_of_drop_deleted (images : List OsImage) (k : Nat)
    (hid : (images.map OsImage.id).Nodup) :
    (survivingImages images
        (((sortImagesByCreatedAt images).drop k).map OsImage.id)).Perm
      ((sortImagesByCreatedAt images).take k) := by
  have hportions : ∀ a ∈ (sortImagesByCreatedAt images).take k,
      ∀ b ∈ (sortImagesByCreatedAt images).drop k, OsImage.id a ≠ OsImage.id b :=
    pairwise_take_drop (sortImages_pairwise_ne OsImage.id images hid) k
  have hperm : (survivingImages images
        (((sortImagesByCreatedAt images).drop k).map OsImage.id)).Perm
      (survivingImages (sortImagesByCreatedAt images)
        (((sortImagesByCreatedAt images).drop k).map OsImage.id)) :=
    ((sortImages_perm images).symm).filter _
  have htake : List.filter
      (fun img => !((((sortImagesByCreatedAt images).drop k).map OsImage.id).contains img.id))
      ((sortImagesByCreatedAt images).take k) = (sortImagesByCreatedAt images).take k := by
    apply List.filter_eq_self.mpr
    intro a ha
    have hnm : a.id ∉ ((sortImagesByCreatedAt images).drop k).map OsImage.id := by
      intro hmem
      obtain ⟨b, hb, hbid⟩ := List.mem_map.mp hmem
      exact hportions a ha b hb hbid.symm
    have hc : (((sortImagesByCreatedAt images).drop k).map OsImage.id).contains a.id = false := by
      simpa using hnm
    simp only [hc, Bool.not_false]
  have hdrop : List.filter
      (fun img => !((((sortImagesByCreatedAt images).drop k).map OsImage.id).contains img.id))
      ((sortImagesByCreatedAt images).drop k) = [] := by
    apply List.filter_eq_nil_iff.mpr
    intro b hb
    have hm : b.id ∈ ((sortImagesByCreatedAt images).drop k).map OsImage.id :=
      List.mem_map.mpr ⟨b, hb, rfl⟩
    have hc : (((sortImagesByCreatedAt images).drop k).map OsImage.id).contains b.id = true := by
      simpa using hm
    simp only [hc, Bool.not_true]
    exact fun hfalse => by cases hfalse
  have heq : survivingImages (sortImagesByCreatedAt images)
      (((sortImagesByCreatedAt images).drop k).map OsImage.id)
      = (sortImagesByCreatedAt images).take k := by
    calc survivingImages (sortImagesByCreatedAt images)
          (((sortImagesByCreatedAt images).drop k).map OsImage.id)
        = List.filter
            (fun img =>
              !((((sortImagesByCreatedAt images).drop k).map OsImage.id).contains img.id))
            ((sortImagesByCreatedAt images).take k ++ (sortImagesByCreatedAt images).drop k) := by
          rw [List.take_append_drop]; rfl
      _ = (sortImagesByCreatedAt images).take k := by
          rw [List.filter_append, htake, hdrop, List.append_nil]
  rw [heq] at hperm
  exact hperm

/-- `_unmount_build_path` clears every mount flag and leaves the
attachment alone. -/
theorem unmount_clears (s0 : HostState) :
    (unmountBuildPath s0).1 = ⟨false, false, false, false, s0.nbdAttached⟩ := by
  obtain ⟨a, b, c, d, e⟩ := s0
  cases a <;> cases b <;> cases c <;> cases d <;> cases e <;> rfl

/-- The two unconditional cleanup calls at the start of `build_image`
reset any prior host state to the clean host. -/
theorem cleanup_resets (s0 : HostState) :
    (disconnectImageToNetworkBlockDevice (unmountBuildPath s0).1 false).1 = cleanHost := by
  obtain ⟨a, b, c, d, e⟩ := s0
  cases a <;> cases b <;> cases c <;> cases d <;> cases e <;> rfl

/-- Under an always-failing operation, the retry loop performs every
remaining attempt and ends with the operation's own error from the last
attempt. -/
theorem retryGo_always_fails {E A : Type} (p : RetryParams) (op : Nat → Except E A)
    (err : Nat → E) (hop : ∀ n, op n = .error (err n)) :
    ∀ (remaining attempt : Nat) (sleeps : List Nat),
      (retryGo p op attempt remaining sleeps).1 = .error (err (attempt + remaining))
      ∧ (retryGo p op attempt remaining sleeps).2.1 = attempt + remaining := by
  intro remaining
  induction remaining with
  | zero =>
    intro attempt sleeps
    simp [retryGo, hop attempt]
  | succ r ih =>
    intro attempt sleeps
    rw [retryGo, hop attempt]
    have hsum : attempt + (r + 1) = (attempt + 1) + r := by omega
    rw [hsum]
    exact ih (attempt + 1) (min (p.delay * p.backoff ^ (attempt - 1)) p.maxDelay :: sleeps)

/-! ## Claim theorems -/

/-- **C6.** `_validate_checksum` reads the file in fixed-size 64KB
chunks, computes the SHA-256 of the full byte stream, and returns
`True` exactly when the digest's lowercase hex representation equals
the expected string under case-sensitive string comparison; a mismatch
returns `False` rather than raising; the empty file is not
special-cased and yields the well-known SHA-256 empty digest (so its
uppercase variant is rejected). -/
theorem validate_checksum_spec (content : List Nat) (expected : String) :
    (validateChecksum content expected = true ↔ sha256Hex content = expected)
    ∧ validateChecksum []
        "e3b0c44298fc1c149afbf4c8996fb92427ae41e4649b934ca495991b7852b855" = true
    ∧ validateChecksum []
        "E3B0C44298FC1C149AFBF4C8996FB92427AE41E4649B934CA495991B7852B855" = false := by
  have h0 : checksumReadLoop [] [] = [] := checksumReadLoop_eq [] []
  refine ⟨?_, by rw [validateChecksum, h0]; decide, by rw [validateChecksum, h0]; decide⟩
  rw [validateChecksum, checksumReadLoop_eq]
  simp

/-- **C9.** On a host with no prior attach or mount state, the
Clean-state cleanup run unconditionally at the start of `build_image` —
the six umounts of `_unmount_build_path` followed by
`_disconnect_image_to_network_block_device(check=False)` — raises no
error and leaves no resource attached: the umounts of the nonexistent
mounts exit non-zero (32) and those exits are discarded because failure
checking is disabled, the disconnects are harmless no-ops, and the
final state is the clean host again.  The two cleanup calls are the
first two steps of every `build_image` run. -/
theorem clean_cleanup_spec :
    unmountBuildPath cleanHost = (cleanHost, .ok [32, 32, 32, 32, 32, 32])
    ∧ disconnectImageToNetworkBlockDevice cleanHost false = (cleanHost, .ok [0, 0])
    ∧ (∀ (o : StepOutcomes) (s0 : HostState),
        (buildImage o s0).2.1.take 2
          = [PipelineStep.cleanUnmount, PipelineStep.cleanDisconnect]) := by
  refine ⟨rfl, rfl, ?_⟩
  intro o s0
  obtain ⟨a, b, c, d, e5, f, g, h⟩ := o
  cases a <;> cases b <;> cases c <;> cases d <;> cases e5 <;> cases f <;>
    cases g <;> cases h <;> rfl

/-- **C2.** (Modelled from the spec; chroot.py is not in the source
tree.)  If the operation run inside a chroot session raises, the
session exits by changing the root back to the original and then
unbinding the three bound paths in reverse order — sys, proc, dev —
with each unbind attempted even if an earlier unbind fails (the
operation trace is the same for every unbind oracle), and the original
in-chroot error propagates unmasked. -/
theorem chroot_unwind_guarantee {E : Type} (bindOk unbindOk : BindPath → Bool)
    (body : Except E Unit) (e : E)
    (hbind : ∀ p, bindOk p = true) (hbody : body = .error e) :
    chrootSession bindOk unbindOk body =
      (⟨!unbindOk .dev, !unbindOk .proc, !unbindOk .sys, false⟩,
       [.bindMount .dev, .bindMount .proc, .bindMount .sys, .enterRoot,
        .exitRoot, .unbind .sys, .unbind .proc, .unbind .dev],
       .bodyError e) := by
  subst hbody
  simp [chrootSession, hbind]

/-- Witness for C2: a run whose body fails with error 7 and whose
`sys` unbind also fails still restores the root, attempts all three
unbinds (sys, proc, dev — in that order, after the root restore), and
propagates error 7; only the stuck `sys` bind stays behind. -/
theorem chroot_unwind_guarantee_witness :
    (∀ p : BindPath, (fun _ : BindPath => true) p = true)
    ∧ (Except.error 7 : Except Nat Unit) = Except.error 7
    ∧ chrootSession (fun _ => true) (fun p => p != BindPath.sys)
        (Except.error 7 : Except Nat Unit) =
      (⟨false, false, true, false⟩,
       [.bindMount .dev, .bindMount .proc, .bindMount .sys, .enterRoot,
        .exitRoot, .unbind .sys, .unbind .proc, .unbind .dev],
       .bodyError 7) :=
  ⟨fun _ => rfl, rfl,
    chroot_unwind_guarantee (fun _ => true) (fun p => p != BindPath.sys)
      (Except.error 7) 7 (fun _ => rfl) rfl⟩

/-- **C5, counterexample.** It is not the case that exactly the four
operations download / fetch-shasums / mount-partition / compress are
retry-wrapped: `_install_yq` also carries a `@retry` decorator in
builder.py. -/
theorem retry_wrapped_ops_counterexample :
    ¬ (∀ op : BuilderOp, (retryParams op).isSome = true ↔
        op ∈ [BuilderOp.downloadBaseImage, BuilderOp.fetchShasums,
              BuilderOp.mountNetworkBlockDevicePartition, BuilderOp.compressImage]) := by
  intro h
  exact absurd ((h BuilderOp.installYq).mp (by decide)) (by decide)

/-- **C5, amended.** Exactly five operations are wrapped by the retry
policy — downloading the base image (3 attempts), fetching the checksum
manifest (3), mounting the partition (5 attempts, 5s initial delay, 60s
max delay, 2x backoff), building/installing yq from source (3), and
compressing the final image (5, 5s/60s/2x) — no other builder operation
is retried; and a retry-wrapped operation that fails on every attempt
is attempted exactly `tries` times, after which the final underlying
error is raised unchanged, with its original type, not wrapped in a
retry-specific type. -/
theorem retry_policy_spec :
    (∀ op : BuilderOp, (retryParams op).isSome = true ↔
        op ∈ [BuilderOp.downloadBaseImage, BuilderOp.fetchShasums,
              BuilderOp.mountNetworkBlockDevicePartition, BuilderOp.installYq,
              BuilderOp.compressImage])
    ∧ retryParams BuilderOp.mountNetworkBlockDevicePartition = some ⟨5, 5, 60, 2⟩
    ∧ retryParams BuilderOp.downloadBaseImage = some ⟨3, 5, 30, 2⟩
    ∧ retryParams BuilderOp.fetchShasums = some ⟨3, 5, 30, 2⟩
    ∧ retryParams BuilderOp.installYq = some ⟨3, 5, 30, 2⟩
    ∧ retryParams BuilderOp.compressImage = some ⟨5, 5, 60, 2⟩
    ∧ (∀ {E A : Type} (p : RetryParams) (op : Nat → Except E A) (err : Nat → E),
        1 ≤ p.tries → (∀ n, op n = .error (err n)) →
        (retryRun p op).1 = .error (err p.tries) ∧ (retryRun p op).2.1 = p.tries) := by
  refine ⟨?_, rfl, rfl, rfl, rfl, rfl, ?_⟩
  · intro op
    cases op <;> decide
  · intro E A p op err hp hop
    have h := retryGo_always_fails p op err hop (p.tries - 1) 1 []
    have hsum : 1 + (p.tries - 1) = p.tries := by omega
    rw [retryRun]
    rw [hsum] at h
    exact h

/-- Witness for C5: the download retry parameters (3 attempts) applied
to an operation that always fails with error 7 make exactly 3 attempts
and raise 7 itself. -/
theorem retry_policy_spec_witness :
    1 ≤ (3 : Nat)
    ∧ (retryRun ⟨3, 5, 30, 2⟩ (fun _ => (Except.error 7 : Except Nat Unit))).1
        = Except.error 7
    ∧ (retryRun ⟨3, 5, 30, 2⟩ (fun _ => (Except.error 7 : Except Nat Unit))).2.1 = 3 :=
  ⟨by decide,
    (retry_policy_spec.2.2.2.2.2.2 ⟨3, 5, 30, 2⟩
      (fun _ => (Except.error 7 : Except Nat Unit)) (fun _ => 7)
      (by decide) (fun _ => rfl)).1,
    (retry_policy_spec.2.2.2.2.2.2 ⟨3, 5, 30, 2⟩
      (fun _ => (Except.error 7 : Except Nat Unit)) (fun _ => 7)
      (by decide) (fun _ => rfl)).2⟩

/-- **C1, counterexample.** When `_resize_mount_partitions` fails after
a successful mount, `build_image` raises `ResizePartitionError` itself
— not a `BuildImageError` aggregate with the resize error as chained
cause — and no cleanup pass runs: the device is still attached and the
mount point still mounted, so the final state is not Clean. -/
theorem build_image_resize_fail_counterexample :
    (buildImage resizeFailOutcomes cleanHost).2.2 = some BuildErr.resizePartitionError
    ∧ (buildImage resizeFailOutcomes cleanHost).1.nbdAttached = true
    ∧ (buildImage resizeFailOutcomes cleanHost).1.rootMounted = true
    ∧ ∀ cause : BuildErr,
        (buildImage resizeFailOutcomes cleanHost).2.2 ≠ some (.buildImageError cause) := by
  refine ⟨by decide, by decide, by decide, ?_⟩
  intro cause hc
  have h : (buildImage resizeFailOutcomes cleanHost).2.2
      = some BuildErr.resizePartitionError := by decide
  rw [h] at hc
  simp at hc

/-- **C1, amended.** Only a `ChrootBaseError` from the chroot session
is caught at the pipeline boundary and re-raised as `BuildImageError`
with the original cause preserved by chaining; every other failure in
steps 2–10 propagates with its original specific error type and no
cleanup pass is attempted at failure time (the Clean pass runs only
unconditionally at the start of the next run).  Case by first failing
step: download/validate, raw-image resize, and attach failures leave
the (freshly cleaned) host clean and raise `BaseImageDownloadError`,
`ImageResizeError` and `ImageConnectError` respectively; a mount
failure raises `ImageConnectError` (its original type — the mount's
`CalledProcessError` is caught inside the connect step) and leaves the
device attached; partition-resize and yq failures raise
`ResizePartitionError` and `YQBuildError` with the device attached and
the mount point mounted; a `ChrootBaseError` is wrapped into
`BuildImageError` with the cause chained, while an error raised by a
configuration step inside the chroot block propagates unwrapped — in
both cases attached and mounted; a compress failure raises
`ImageCompressError` with the device detached but the mount point still
mounted. -/
theorem build_image_error_flow (o : StepOutcomes) (s0 : HostState) :
    (o.downloadValidateOk = false →
      (buildImage o s0).2.2 = some BuildErr.baseImageDownloadError
      ∧ (buildImage o s0).1 = cleanHost)
    ∧ (o.downloadValidateOk = true → o.resizeImageOk = false →
      (buildImage o s0).2.2 = some BuildErr.imageResizeError
      ∧ (buildImage o s0).1 = cleanHost)
    ∧ (o.downloadValidateOk = true → o.resizeImageOk = true → o.connectOk = false →
      (buildImage o s0).2.2 = some BuildErr.imageConnectError
      ∧ (buildImage o s0).1 = cleanHost)
    ∧ (o.downloadValidateOk = true → o.resizeImageOk = true → o.connectOk = true →
        o.mountOk = false →
      (buildImage o s0).2.2 = some BuildErr.imageConnectError
      ∧ (buildImage o s0).1 = ⟨false, false, false, false, true⟩)
    ∧ (o.downloadValidateOk = true → o.resizeImageOk = true → o.connectOk = true →
        o.mountOk = true → o.resizePartitionsOk = false →
      (buildImage o s0).2.2 = some BuildErr.resizePartitionError
      ∧ (buildImage o s0).1 = ⟨false, false, false, true, true⟩)
    ∧ (o.downloadValidateOk = true → o.resizeImageOk = true → o.connectOk = true →
        o.mountOk = true → o.resizePartitionsOk = true → o.installYqOk = false →
      (buildImage o s0).2.2 = some BuildErr.yqBuildError
      ∧ (buildImage o s0).1 = ⟨false, false, false, true, true⟩)
    ∧ (o.downloadValidateOk = true → o.resizeImageOk = true → o.connectOk = true →
        o.mountOk = true → o.resizePartitionsOk = true → o.installYqOk = true →
        o.chrootBlock = .sessionError →
      (buildImage o s0).2.2 = some (.buildImageError .chrootBaseError)
      ∧ (buildImage o s0).1 = ⟨false, false, false, true, true⟩)
    ∧ (∀ e : BuildErr, o.downloadValidateOk = true → o.resizeImageOk = true →
        o.connectOk = true → o.mountOk = true → o.resizePartitionsOk = true →
        o.installYqOk = true → o.chrootBlock = .stepError e →
      (buildImage o s0).2.2 = some e
      ∧ (buildImage o s0).1 = ⟨false, false, false, true, true⟩)
    ∧ (o.downloadValidateOk = true → o.resizeImageOk = true → o.connectOk = true →
        o.mountOk = true → o.resizePartitionsOk = true → o.installYqOk = true →
        o.chrootBlock = .ok → o.compressOk = false →
      (buildImage o s0).2.2 = some BuildErr.imageCompressError
      ∧ (buildImage o s0).1 = ⟨false, false, false, true, false⟩) := by
  obtain ⟨a, b, c, d, e5, f, g, h⟩ := o
  have hc := cleanup_resets s0
  refine ⟨?_, ?_, ?_, ?_, ?_, ?_, ?_, ?_, ?_⟩
  · intro h1
    simp only at h1
    subst h1
    exact ⟨by simp [buildImage], by simp [buildImage, hc]⟩
  · intro h1 h2
    simp only at h1 h2
    subst h1 h2
    exact ⟨by simp [buildImage], by simp [buildImage, hc]⟩
  · intro h1 h2 h3
    simp only at h1 h2 h3
    subst h1 h2 h3
    exact ⟨by simp [buildImage], by simp [buildImage, hc]⟩
  · intro h1 h2 h3 h4
    simp only at h1 h2 h3 h4
    subst h1 h2 h3 h4
    exact ⟨by simp [buildImage], by simp [buildImage, hc, cleanHost]⟩
  · intro h1 h2 h3 h4 h5
    simp only at h1 h2 h3 h4 h5
    subst h1 h2 h3 h4 h5
    exact ⟨by simp [buildImage], by simp [buildImage, hc, cleanHost]⟩
  · intro h1 h2 h3 h4 h5 h6
    simp only at h1 h2 h3 h4 h5 h6
    subst h1 h2 h3 h4 h5 h6
    exact ⟨by simp [buildImage], by simp [buildImage, hc, cleanHost]⟩
  · intro h1 h2 h3 h4 h5 h6 h7
    simp only at h1 h2 h3 h4 h5 h6 h7
    subst h1 h2 h3 h4 h5 h6 h7
    exact ⟨by simp [buildImage], by simp [buildImage, hc, cleanHost]⟩
  · intro e h1 h2 h3 h4 h5 h6 h7
    simp only at h1 h2 h3 h4 h5 h6 h7
    subst h1 h2 h3 h4 h5 h6 h7
    exact ⟨by simp [buildImage], by simp [buildImage, hc, cleanHost]⟩
  · intro h1 h2 h3 h4 h5 h6 h7 h8
    simp only at h1 h2 h3 h4 h5 h6 h7 h8
    subst h1 h2 h3 h4 h5 h6 h7 h8
    constructor
    · simp [buildImage]
    · simp [buildImage, unmount_clears, cleanHost, disconnectImageToNetworkBlockDevice,
        runCmdSeq, subprocessRun, runCleanupCmd]

/-- Witness for C1: the resize-failure oracle on a clean host
discharges the fifth case's hypotheses and exhibits the direct
`ResizePartitionError` with the device still attached and the mount
point still mounted. -/
theorem build_image_error_flow_witness :
    resizeFailOutcomes.downloadValidateOk = true
    ∧ resizeFailOutcomes.resizeImageOk = true
    ∧ resizeFailOutcomes.connectOk = true
    ∧ resizeFailOutcomes.mountOk = true
    ∧ resizeFailOutcomes.resizePartitionsOk = false
    ∧ ((buildImage resizeFailOutcomes cleanHost).2.2 = some BuildErr.resizePartitionError
      ∧ (buildImage resizeFailOutcomes cleanHost).1 = ⟨false, false, false, true, true⟩) :=
  ⟨rfl, rfl, rfl, rfl, rfl,
    (build_image_error_flow resizeFailOutcomes cleanHost).2.2.2.2.1 rfl rfl rfl rfl rfl⟩

/-- **C8, counterexample.** In a fully successful run, the partition
resize step occurs strictly before the `resolv.conf` replacement — the
opposite of the claimed order (replacement before resize). -/
theorem resolv_conf_order_counterexample :
    ((buildImage allStepsOk cleanHost).2.1.indexOf PipelineStep.resizePartitions <
      (buildImage allStepsOk cleanHost).2.1.indexOf PipelineStep.replaceResolvConf)
    ∧ PipelineStep.replaceResolvConf ∈ (buildImage allStepsOk cleanHost).2.1
    ∧ PipelineStep.resizePartitions ∈ (buildImage allStepsOk cleanHost).2.1 := by
  decide

/-- **C8, amended.** In every run of the pipeline in which the
`resolv.conf` replacement is performed, it occurs after the
attach+mount step and after the partition+filesystem resize step
(which follows the mount), and before the chroot is entered. -/
theorem resolv_conf_replacement_order (o : StepOutcomes) (s0 : HostState)
    (hmem : PipelineStep.replaceResolvConf ∈ (buildImage o s0).2.1) :
    ((buildImage o s0).2.1.indexOf PipelineStep.mountPartition <
      (buildImage o s0).2.1.indexOf PipelineStep.resizePartitions)
    ∧ ((buildImage o s0).2.1.indexOf PipelineStep.resizePartitions <
      (buildImage o s0).2.1.indexOf PipelineStep.replaceResolvConf)
    ∧ ((buildImage o s0).2.1.indexOf PipelineStep.replaceResolvConf <
      (buildImage o s0).2.1.indexOf PipelineStep.chrootConfigure)
    ∧ PipelineStep.chrootConfigure ∈ (buildImage o s0).2.1 := by
  obtain ⟨a, b, c, d, e5, f, g, h⟩ := o
  cases a <;> cases b <;> cases c <;> cases d <;> cases e5 <;> cases f <;>
    cases g <;> cases h <;>
    simp_all [buildImage]

/-- Witness for C8: the all-success run performs the replacement, and
there mount < resize < replacement < chroot holds in the trace. -/
theorem resolv_conf_replacement_order_witness :
    PipelineStep.replaceResolvConf ∈ (buildImage allStepsOk cleanHost).2.1
    ∧ (((buildImage allStepsOk cleanHost).2.1.indexOf PipelineStep.mountPartition <
        (buildImage allStepsOk cleanHost).2.1.indexOf PipelineStep.resizePartitions)
      ∧ ((buildImage allStepsOk cleanHost).2.1.indexOf PipelineStep.resizePartitions <
        (buildImage allStepsOk cleanHost).2.1.indexOf PipelineStep.replaceResolvConf)
      ∧ ((buildImage allStepsOk cleanHost).2.1.indexOf PipelineStep.replaceResolvConf <
        (buildImage allStepsOk cleanHost).2.1.indexOf PipelineStep.chrootConfigure)
      ∧ PipelineStep.chrootConfigure ∈ (buildImage allStepsOk cleanHost).2.1) :=
  ⟨by decide, resolv_conf_replacement_order allStepsOk cleanHost (by decide)⟩

/-- **C7.** For every checksum manifest whose lines are of the form
`"<hex-digest> *<filename>"` (well-formed, pairwise distinct
filenames), `_fetch_shasums` produces a map from filename to digest:
looking up a filename present in the manifest yields its digest;
`_download_and_validate_image` fails with the missing-manifest-entry
`BaseImageDownloadError("Corresponding checksum not found.")` when the
requested image's filename is absent, and with the checksum-mismatch
`BaseImageDownloadError("Invalid checksum.")` when the entry is present
but does not match the downloaded file's SHA-256; and
`_download_and_validate_image`, where both failures are raised, carries
no retry decorator, so neither failure is retried. -/
theorem fetch_shasums_manifest_spec
    (manifest : List Char) (entries : List (List Char × List Char))
    (arch : Arch) (base : BaseImage) (content : List Nat)
    (hlines : pySplitlines (pyStrip manifest)
        = entries.map (fun e => renderShaLine e.1 e.2))
    (hwf : ∀ e ∈ entries, wfToken e.1 = true ∧ wfFileToken e.2 = true)
    (hnodup : (entries.map Prod.snd).Nodup) :
    fetchShasumsParse manifest = some (entries.map (fun e => (e.2, e.1)))
    ∧ (∀ d f, (d, f) ∈ entries →
        pyDictGet (entries.map (fun e => (e.2, e.1))) f = some d)
    ∧ (imagePathStr arch base ∉ entries.map Prod.snd →
        downloadAndValidateImage arch base manifest content
          = .error .checksumNotFound)
    ∧ (∀ d, (d, imagePathStr arch base) ∈ entries →
        sha256Hex content ≠ String.mk d →
        downloadAndValidateImage arch base manifest content
          = .error .invalidChecksum)
    ∧ retryParams BuilderOp.downloadAndValidateImage = none := by
  have hparse : fetchShasumsParse manifest
      = some (entries.map (fun e => (e.2, e.1))) := by
    rw [fetchShasumsParse, hlines,
      fetchShasums_foldl entries [] hwf (fun e _ => rfl) hnodup]
    simp
  refine ⟨hparse, ?_, ?_, ?_, rfl⟩
  · intro d f hmem
    exact pyDictGet_swap_mem entries hnodup d f hmem
  · intro habs
    rw [downloadAndValidateImage]
    simp only [hparse, pyDictGet_swap_not_mem entries _ habs]
  · intro d hmem hne
    have hget := pyDictGet_swap_mem entries hnodup d _ hmem
    have hval : validateChecksum content (String.mk d) = false := by
      rw [validateChecksum, checksumReadLoop_eq]
      simpa using hne
    rw [downloadAndValidateImage]
    simp only [hparse, hget, hval, Bool.false_eq_true, if_false]

/-- Witness for C7: the two-line jammy/noble manifest of the spec.  The
parse maps "jammy-server-cloudimg-amd64.img" to "abc123" and
"noble-server-cloudimg-amd64.img" to "def456"; asking for the jammy
arm64 image (a filename absent from the manifest, like the spec's focal
example) fails with the missing-entry error. -/
theorem fetch_shasums_manifest_spec_witness :
    (pySplitlines (pyStrip exManifest)
        = exEntries.map (fun e => renderShaLine e.1 e.2))
    ∧ (∀ e ∈ exEntries, wfToken e.1 = true ∧ wfFileToken e.2 = true)
    ∧ (exEntries.map Prod.snd).Nodup
    ∧ (fetchShasumsParse exManifest = some (exEntries.map (fun e => (e.2, e.1)))
      ∧ (∀ d f, (d, f) ∈ exEntries →
          pyDictGet (exEntries.map (fun e => (e.2, e.1))) f = some d)
      ∧ (imagePathStr Arch.arm64 BaseImage.jammy ∉ exEntries.map Prod.snd →
          downloadAndValidateImage Arch.arm64 BaseImage.jammy exManifest []
            = .error .checksumNotFound)
      ∧ (∀ d, (d, imagePathStr Arch.arm64 BaseImage.jammy) ∈ exEntries →
          sha256Hex [] ≠ String.mk d →
          downloadAndValidateImage Arch.arm64 BaseImage.jammy exManifest []
            = .error .invalidChecksum)
      ∧ retryParams BuilderOp.downloadAndValidateImage = none) :=
  ⟨by decide, by decide, by decide,
    fetch_shasums_manifest_spec exManifest exEntries Arch.arm64 BaseImage.jammy []
      (by decide) (by decide) (by decide)⟩

/-- **C3.** For `N` images sharing a name with distinct creation
timestamps and `keep_count = k < N` (all deletions succeeding),
`_prune_old_images` fetches all matches, sorts them latest first, and
deletes exactly the `N - k` oldest: the deletion attempts are precisely
the ids of the sorted list beyond position `k` (so `k = 0` deletes all
matches), the `k` newest survive untouched, and every surviving image
is strictly newer than every deleted one.  `get_latest_build_id`
performs the same fetch+sort and returns the first id when matches
exist — the id of an image at least as new as every match — and the
explicit absent value `""` when there are none. -/
theorem store_prune_get_latest_spec (images : List OsImage)
    (delete : String → DeleteResult) (k : Nat)
    (hid : (images.map OsImage.id).Nodup)
    (hts : (images.map OsImage.createdAt).Nodup)
    (hk : k < images.length)
    (hdel : ∀ i, delete i = .ok) :
    (storePruneOldImages images delete k).2 = none
    ∧ (storePruneOldImages images delete k).1
        = ((sortImagesByCreatedAt images).drop k).map OsImage.id
    ∧ (storePruneOldImages images delete k).1.length = images.length - k
    ∧ (survivingImages images
         (deletedIds delete (storePruneOldImages images delete k).1)).Perm
        ((sortImagesByCreatedAt images).take k)
    ∧ (survivingImages images
         (deletedIds delete (storePruneOldImages images delete k).1)).length = k
    ∧ (∀ kept ∈ (sortImagesByCreatedAt images).take k,
        ∀ pruned ∈ (sortImagesByCreatedAt images).drop k,
          pruned.createdAt < kept.createdAt)
    ∧ getLatestBuildId [] = ""
    ∧ (∀ (first : OsImage) (rest : List OsImage),
        sortImagesByCreatedAt images = first :: rest →
        getLatestBuildId images = first.id
        ∧ ∀ img ∈ images, img.createdAt ≤ first.createdAt) := by
  have hlen : (sortImagesByCreatedAt images).length = images.length :=
    sortImages_length images
  have hne : (sortImagesByCreatedAt images).isEmpty = false := by
    rcases hsort : sortImagesByCreatedAt images with _ | ⟨a, rest⟩
    · rw [hsort] at hlen
      simp at hlen
      omega
    · rfl
  have hprune : storePruneOldImages images delete k
      = (((sortImagesByCreatedAt images).drop k).map OsImage.id, none) := by
    rw [storePruneOldImages]
    simp only [hne, Bool.false_eq_true, if_false]
    exact storeDeleteLoop_allOk delete hdel _
  have hdeleted : deletedIds delete (storePruneOldImages images delete k).1
      = ((sortImagesByCreatedAt images).drop k).map OsImage.id := by
    rw [hprune]
    simp [deletedIds, List.filter_eq_self, hdel]
  have hsurv := surviving_take_of_drop_deleted images k hid
  have hsorted := sortImages_sorted images
  refine ⟨by rw [hprune], by rw [hprune], ?_, ?_, ?_, ?_, rfl, ?_⟩
  · rw [hprune]
    simp only [List.length_map, List.length_drop]
    omega
  · rw [hdeleted]
    exact hsurv
  · rw [hdeleted]
    have := hsurv.length_eq
    rw [this, List.length_take]
    omega
  · have hlt : (sortImagesByCreatedAt images).Pairwise
        (fun a b => b.createdAt < a.createdAt) := by
      have hne2 := sortImages_pairwise_ne OsImage.createdAt images hts
      exact (hsorted.and hne2).imp (fun hab => lt_of_le_of_ne hab.1 hab.2.symm)
    exact pairwise_take_drop hlt k
  · intro first rest hsort
    constructor
    · rw [getLatestBuildId, hsort]
    · intro img himg
      have himg2 : img ∈ sortImagesByCreatedAt images :=
        (sortImages_perm images).mem_iff.mpr himg
      rw [hsort] at himg2 hsorted
      rw [List.pairwise_cons] at hsorted
      rcases List.mem_cons.mp himg2 with h | h
      · subst h; exact le_refl _
      · exact hsorted.1 img h

/-- Witness for C3: three revisions (a newest, b, c oldest), keep 1,
all deletions succeeding — b and c are deleted (in that order), a
survives, and `get_latest_build_id` returns a. -/
theorem store_prune_get_latest_spec_witness :
    (exImages.map OsImage.id).Nodup
    ∧ (exImages.map OsImage.createdAt).Nodup
    ∧ 1 < exImages.length
    ∧ ((storePruneOldImages exImages (fun _ => .ok) 1).2 = none
      ∧ (storePruneOldImages exImages (fun _ => .ok) 1).1
          = ((sortImagesByCreatedAt exImages).drop 1).map OsImage.id
      ∧ (storePruneOldImages exImages (fun _ => .ok) 1).1.length = exImages.length - 1
      ∧ (survivingImages exImages
           (deletedIds (fun _ => .ok) (storePruneOldImages exImages (fun _ => .ok) 1).1)).Perm
          ((sortImagesByCreatedAt exImages).take 1)
      ∧ (survivingImages exImages
           (deletedIds (fun _ => .ok) (storePruneOldImages exImages (fun _ => .ok) 1).1)).length
          = 1
      ∧ (∀ kept ∈ (sortImagesByCreatedAt exImages).take 1,
          ∀ pruned ∈ (sortImagesByCreatedAt exImages).drop 1,
            pruned.createdAt < kept.createdAt)
      ∧ getLatestBuildId [] = ""
      ∧ (∀ (first : OsImage) (rest : List OsImage),
          sortImagesByCreatedAt exImages = first :: rest →
          getLatestBuildId exImages = first.id
          ∧ ∀ img ∈ exImages, img.createdAt ≤ first.createdAt)) :=
  ⟨by decide, by decide, by decide,
    store_prune_get_latest_spec exImages (fun _ => .ok) 1
      (by decide) (by decide) (by decide) (fun _ => rfl)⟩

/-- **C4, counterexample.** Three revisions a (newest), b, c (oldest),
`keep_count = 1`, where deleting b raises an
`OpenStackCloudException`: pruning attempts b, the failure aborts the
loop so c's deletion is never attempted, and `upload_image` — although
the upload itself succeeded — raises the pruning `OpenstackError`
instead of returning the uploaded image's id. -/
theorem store_prune_fail_counterexample :
    (storeUploadImage true "new" exImages exDelete 1).2 = ["b"]
    ∧ "c" ∉ (storeUploadImage true "new" exImages exDelete 1).2
    ∧ (storeUploadImage true "new" exImages exDelete 1).1
        = .error StoreErr.openstackError
    ∧ (storeUploadImage true "new" exImages exDelete 1).1 ≠ .ok "new" := by
  refine ⟨by decide, by decide, rfl, fun h => Except.noConfusion h⟩

/-- **C4, amended.** Pruning in store.py is fail-fast, not
collect-and-continue: the first failed deletion (a `False` return or an
`OpenStackCloudException`) raises `OpenstackError` and the remaining
stale images are not attempted.  In `upload_image`, pruning runs only
after the upload has succeeded (no deletion is attempted when the
upload fails), but when pruning then fails, the `OpenstackError` — an
error kind distinct from `UploadImageError` — propagates to the caller
and the uploaded image's id is not returned. -/
theorem store_prune_fail_fast_spec (images : List OsImage)
    (delete : String → DeleteResult) (k : Nat) (newId : String)
    (pre : List OsImage) (x : OsImage) (post : List OsImage)
    (hsplit : (sortImagesByCreatedAt images).drop k = pre ++ x :: post)
    (hpre : ∀ i ∈ pre, delete i.id = .ok)
    (hx : delete x.id ≠ .ok) :
    (storePruneOldImages images delete k).1 = pre.map OsImage.id ++ [x.id]
    ∧ (storePruneOldImages images delete k).2 = some .openstackError
    ∧ storeUploadImage true newId images delete k
        = (.error StoreErr.openstackError, pre.map OsImage.id ++ [x.id])
    ∧ storeUploadImage false newId images delete k
        = (.error StoreErr.uploadImageError, [])
    ∧ StoreErr.openstackError ≠ StoreErr.uploadImageError := by
  have hne : (sortImagesByCreatedAt images).isEmpty = false := by
    rcases hsort : sortImagesByCreatedAt images with _ | ⟨a, rest⟩
    · rw [hsort] at hsplit
      simp at hsplit
    · rfl
  have hprune : storePruneOldImages images delete k
      = (pre.map OsImage.id ++ [x.id], some .openstackError) := by
    rw [storePruneOldImages]
    simp only [hne, Bool.false_eq_true, if_false]
    rw [hsplit]
    exact storeDeleteLoop_firstFail delete pre x post hpre hx
  refine ⟨by rw [hprune], by rw [hprune], ?_, rfl, by decide⟩
  rw [storeUploadImage]
  simp only [hprune]
  rfl

/-- Witness for C4: the concrete three-revision registry where deleting
b fails; pruning attempts only b and `upload_image` surfaces the
`OpenstackError`. -/
theorem store_prune_fail_fast_spec_witness :
    ((sortImagesByCreatedAt exImages).drop 1 = [] ++ ⟨"b", 2⟩ :: [⟨"c", 1⟩])
    ∧ (∀ i ∈ ([] : List OsImage), exDelete i.id = .ok)
    ∧ exDelete (OsImage.mk "b" 2).id ≠ .ok
    ∧ ((storePruneOldImages exImages exDelete 1).1
        = ([] : List OsImage).map OsImage.id ++ [(OsImage.mk "b" 2).id]
      ∧ (storePruneOldImages exImages exDelete 1).2 = some .openstackError
      ∧ storeUploadImage true "new" exImages exDelete 1
          = (.error StoreErr.openstackError,
             ([] : List OsImage).map OsImage.id ++ [(OsImage.mk "b" 2).id])
      ∧ storeUploadImage false "new" exImages exDelete 1
          = (.error StoreErr.uploadImageError, [])
      ∧ StoreErr.openstackError ≠ StoreErr.uploadImageError) :=
  ⟨by decide, fun i hi => absurd hi (List.not_mem_nil i), by decide,
    store_prune_fail_fast_spec exImages exDelete 1 "new" [] ⟨"b", 2⟩ [⟨"c", 1⟩]
      (by decide) (fun i hi => absurd hi (List.not_mem_nil i)) (by decide)⟩

/-- **C10.** In `OpenstackManager.upload_image`, pruning runs before
the upload with a retention of `num_revisions - 1` (the event trace
places every deletion attempt before `create_image`); each deletion
failure is logged and skipped, so every stale image's deletion is
attempted regardless of earlier failures; when all deletions succeed
and `num_revisions ≥ 1`, at most `num_revisions` revisions exist after
the upload completes; and as a consequence of Python slice semantics,
when `num_revisions = 0` the slice `images[-1:]` selects only the
single oldest matching image for deletion, leaving every newer revision
in place instead of deleting all matches. -/
theorem manager_upload_prune_spec (images : List OsImage)
    (delete : String → DeleteResult) (n : Int) (newId : String)
    (himgs : images ≠ [])
    (hid : (images.map OsImage.id).Nodup) :
    (∀ createOk : Bool, (managerUploadImage images delete n createOk newId).1
        = (managerPruneOldImages images delete (n - 1)).map ManagerEvent.deleteAttempt
          ++ [ManagerEvent.createImage])
    ∧ managerPruneOldImages images delete (n - 1)
        = (pySliceFrom (sortImagesByCreatedAt images) (n - 1)).map OsImage.id
    ∧ (n = 0 →
        ∃ (oldest : OsImage) (newerRevisions : List OsImage),
          sortImagesByCreatedAt images = newerRevisions ++ [oldest]
          ∧ managerPruneOldImages images delete (n - 1) = [oldest.id]
          ∧ (∀ img ∈ images, oldest.createdAt ≤ img.createdAt)
          ∧ (∀ img ∈ newerRevisions, img.id ≠ oldest.id))
    ∧ (1 ≤ n → (∀ i, delete i = .ok) →
        (survivingImages images
            (deletedIds delete (managerPruneOldImages images delete (n - 1)))).length + 1
          ≤ n.toNat) := by
  have hlen : (sortImagesByCreatedAt images).length = images.length :=
    sortImages_length images
  have hsne : sortImagesByCreatedAt images ≠ [] := by
    intro h
    rw [h] at hlen
    simp at hlen
    exact himgs (List.length_eq_zero.mp hlen.symm)
  refine ⟨?_, ?_, ?_, ?_⟩
  · intro createOk
    cases createOk <;> rfl
  · rw [managerPruneOldImages, managerDeleteLoop_eq_map]
  · intro hn
    subst hn
    refine ⟨(sortImagesByCreatedAt images).getLast hsne,
      (sortImagesByCreatedAt images).dropLast, (List.dropLast_append_getLast hsne).symm,
      ?_, ?_, ?_⟩
    · rw [managerPruneOldImages, managerDeleteLoop_eq_map]
      have hslice : pySliceFrom (sortImagesByCreatedAt images) ((0 : Int) - 1)
          = [(sortImagesByCreatedAt images).getLast hsne] := by
        rw [pySliceFrom]
        have h01 : ¬ ((0 : Int) ≤ 0 - 1) := by omega
        rw [if_neg h01]
        have hmin : min (sortImagesByCreatedAt images).length (-(0 - 1) : Int).toNat = 1 := by
          have : (sortImagesByCreatedAt images).length ≥ 1 := by
            rcases hs : sortImagesByCreatedAt images with _ | ⟨a, rest⟩
            · exact absurd hs hsne
            · simp
          have h1 : ((-(0 - 1) : Int)).toNat = 1 := by decide
          rw [h1]
          omega
        rw [hmin]
        conv_lhs =>
          rw [← List.dropLast_append_getLast hsne]
        have hdl : ((sortImagesByCreatedAt images).dropLast
            ++ [(sortImagesByCreatedAt images).getLast hsne]).length - 1
            = (sortImagesByCreatedAt images).dropLast.length := by
          simp
        rw [hdl, List.drop_left]
      rw [hslice]
      rfl
    · intro img himg
      have himg2 : img ∈ sortImagesByCreatedAt images :=
        (sortImages_perm images).mem_iff.mpr himg
      have hsorted := sortImages_sorted images
      rw [← List.dropLast_append_getLast hsne] at himg2 hsorted
      have hpw := (List.pairwise_append.mp hsorted).2.2
      rcases List.mem_append.mp himg2 with h | h
      · exact hpw img h _ (by simp)
      · have : img = (sortImagesByCreatedAt images).getLast hsne := by simpa using h
        rw [this]
    · intro img himg
      have hsortedne := sortImages_pairwise_ne OsImage.id images hid
      rw [← List.dropLast_append_getLast hsne] at hsortedne
      exact (List.pairwise_append.mp hsortedne).2.2 img himg _ (by simp)
  · intro hn hdel
    have hslice : pySliceFrom (sortImagesByCreatedAt images) (n - 1)
        = (sortImagesByCreatedAt images).drop (n - 1).toNat := by
      rw [pySliceFrom, if_pos (by omega)]
    have hdeleted : deletedIds delete (managerPruneOldImages images delete (n - 1))
        = ((sortImagesByCreatedAt images).drop (n - 1).toNat).map OsImage.id := by
      rw [managerPruneOldImages, managerDeleteLoop_eq_map, hslice]
      simp [deletedIds, List.filter_eq_self, hdel]
    rw [hdeleted]
    have hsurv := (surviving_take_of_drop_deleted images (n - 1).toNat hid).length_eq
    rw [hsurv, List.length_take]
    omega

/-- Witness for C10: the three-revision registry with `num_revisions =
0` — only the oldest image c is deleted before the upload, and a and b
stay in place. -/
theorem manager_upload_prune_spec_witness :
    exImages ≠ []
    ∧ (exImages.map OsImage.id).Nodup
    ∧ ((∀ createOk : Bool,
          (managerUploadImage exImages (fun _ => .ok) 0 createOk "new").1
            = (managerPruneOldImages exImages (fun _ => .ok) ((0 : Int) - 1)).map
                ManagerEvent.deleteAttempt ++ [ManagerEvent.createImage])
      ∧ managerPruneOldImages exImages (fun _ => .ok) ((0 : Int) - 1)
          = (pySliceFrom (sortImagesByCreatedAt exImages) ((0 : Int) - 1)).map OsImage.id
      ∧ ((0 : Int) = 0 →
          ∃ (oldest : OsImage) (newerRevisions : List OsImage),
            sortImagesByCreatedAt exImages = newerRevisions ++ [oldest]
            ∧ managerPruneOldImages exImages (fun _ => .ok) ((0 : Int) - 1) = [oldest.id]
            ∧ (∀ img ∈ exImages, oldest.createdAt ≤ img.createdAt)
            ∧ (∀ img ∈ newerRevisions, img.id ≠ oldest.id))
      ∧ (1 ≤ (0 : Int) → (∀ i, (fun _ : String => DeleteResult.ok) i = .ok) →
          (survivingImages exImages
              (deletedIds (fun _ => .ok)
                (managerPruneOldImages exImages (fun _ => .ok) ((0 : Int) - 1)))).length + 1
            ≤ (0 : Int).toNat)) :=
  ⟨by decide, by decide,
    manager_upload_prune_spec exImages (fun _ => .ok) 0 "new" (by decide) (by decide)⟩

end ImageBuilder
